import Mathlib

/-!
Shallow embedding of the multi-threaded bank system
(`src/C++/Multi_Threading_Bank_System/main.cpp`).

The program is an in-memory bank ledger: `Account` holds a mutable integer
balance guarded by its own `std::mutex`; `Bank` owns a growable list of
accounts, an append-only transaction list, and a `nextAccountNumber` counter
starting at 1000; the `userMenu` loop drives deposits, withdrawals and
transfers and records a `Transaction` after each successful mutation.

Locking is modelled explicitly where it is observable from a single caller:
`Account::transfer` acquires the calling account's mutex, validates and
debits, and only then acquires the target account's mutex.  The model
therefore returns, alongside the functional result, the list of account
numbers whose mutexes were acquired, in acquisition order; and a transfer
whose target is the very same `Account` object re-acquires the mutex it
already holds, which for a non-recursive `std::mutex` never completes —
modelled as the `deadlock` outcome, with the state frozen at the point of
the blocked acquisition (the debit has already happened).

C++ `int` arithmetic is modelled by `Int`: signed overflow in C++ is
undefined behaviour, so the embedding covers exactly the defined executions.
-/

namespace BankSys

/-- `Account` from the source: account number, name, integer balance, type.
The `accMutex` member is not data; its discipline is modelled in the
operations below. -/
structure Account where
  accountNumber : Int
  accountName : String
  balance : Int
  accountType : String
  deriving DecidableEq, Repr

/-- `Transaction` from the source: id (assigned as `transactions.size() + 1`
at append time), type string, amount, from account, to account (`-1` when
absent).  The wall-clock timestamp is not modelled. -/
structure Transaction where
  transactionId : Nat
  type : String
  amount : Int
  fromAccount : Int
  toAccount : Int
  deriving DecidableEq, Repr

/-- `Bank` from the source: the owned accounts (a `vector<unique_ptr<Account>>`,
modelled as a list in insertion order), the transaction list, and the
`nextAccountNumber` counter. -/
structure Bank where
  accounts : List Account
  transactions : List Transaction
  nextAccountNumber : Int
  deriving DecidableEq, Repr

/-- A freshly constructed `Bank`: no accounts, no transactions, counter at
its initial value `1000` (the in-class initialiser `int nextAccountNumber = 1000`). -/
def Bank.initial : Bank := ⟨[], [], 1000⟩

/-- `Account::deposit`: fail with no mutation when `amount <= 0`, otherwise
`balance += amount` under the account's lock and return `true`. -/
def Account.deposit (a : Account) (amount : Int) : Bool × Account :=
  if amount ≤ 0 then (false, a)
  else (true, { a with balance := a.balance + amount })

/-- `Account::withdraw`: under the account's lock, fail with no mutation when
`amount <= 0 || amount > balance`, otherwise `balance -= amount`. -/
def Account.withdraw (a : Account) (amount : Int) : Bool × Account :=
  if amount ≤ 0 ∨ a.balance < amount then (false, a)
  else (true, { a with balance := a.balance - amount })

/-- Outcome of a transfer as observed by the caller: `ok` (returned `true`),
`fail` (returned `false`), or `deadlock` (the call never returns: it blocked
acquiring a `std::mutex` the calling thread already holds). -/
inductive TransferOutcome
  | ok
  | fail
  | deadlock
  deriving DecidableEq, Repr

/-- The loop body of `Bank::findAccount`: scan the accounts in order and
return the first whose number matches, else null. -/
def findAcc : List Account → Int → Option Account
  | [], _ => none
  | a :: rest, n => if a.accountNumber = n then some a else findAcc rest n

/-- `Bank::findAccount(accountNumber)`. -/
def Bank.findAccount (b : Bank) (n : Int) : Option Account :=
  findAcc b.accounts n

/-- Mutation through the pointer returned by `Bank::findAccount`: the first
account in the list whose number matches is replaced by its image under `f`;
every other element is untouched. -/
def updateFirst : List Account → Int → (Account → Account) → List Account
  | [], _, _ => []
  | a :: rest, n, f =>
      if a.accountNumber = n then f a :: rest else a :: updateFirst rest n f

/-- `Bank::recordTransaction(type, amount, fromAccount, toAccount = -1)`:
append a `Transaction` numbered `transactions.size() + 1`. -/
def Bank.recordTransaction (b : Bank) (type : String) (amount : Int)
    (fromAccount : Int) (toAccount : Int) : Bank :=
  { b with transactions :=
      b.transactions ++
        [⟨b.transactions.length + 1, type, amount, fromAccount, toAccount⟩] }

/-- `Bank::createAccount(name, type, initialBalance)`: push a new `Account`
built from `nextAccountNumber` and the arguments, then return
`nextAccountNumber++`. -/
def Bank.createAccount (b : Bank) (name : String) (type : String)
    (initialBalance : Int) : Int × Bank :=
  (b.nextAccountNumber,
   { b with
       accounts := b.accounts ++ [⟨b.nextAccountNumber, name, initialBalance, type⟩],
       nextAccountNumber := b.nextAccountNumber + 1 })

/-- Menu case 2 of `userMenu`: look the account up, call `Account::deposit`,
and on success record a `"Deposit"` transaction (`toAccount` defaulted to
`-1`).  A missing account or a failed deposit leaves the bank unchanged. -/
def Bank.depositOp (b : Bank) (accNum : Int) (amount : Int) : Bool × Bank :=
  match b.findAccount accNum with
  | none => (false, b)
  | some acc =>
      let r := acc.deposit amount
      if r.1 then
        (true,
         ({ b with accounts := updateFirst b.accounts accNum (fun _ => r.2)
          }).recordTransaction "Deposit" amount accNum (-1))
      else (false, b)

/-- Menu case 3 of `userMenu`: look the account up, call `Account::withdraw`,
and on success record a `"Withdraw"` transaction. -/
def Bank.withdrawOp (b : Bank) (accNum : Int) (amount : Int) : Bool × Bank :=
  match b.findAccount accNum with
  | none => (false, b)
  | some acc =>
      let r := acc.withdraw amount
      if r.1 then
        (true,
         ({ b with accounts := updateFirst b.accounts accNum (fun _ => r.2)
          }).recordTransaction "Withdraw" amount accNum (-1))
      else (false, b)

/-- Menu case 4 of `userMenu` around `Account::transfer`.  Both accounts are
looked up; then `from->transfer(*to, amount)` runs:

  * `lock_guard guard(accMutex)` acquires the *from* account's mutex;
  * `if (amount <= 0 || amount > balance) return false;` validates under
    that single lock;
  * `balance -= amount` debits the from account;
  * `lock_guard targetGuard(toAccount.accMutex)` then acquires the target's
    mutex.  `findAccount` returns the first account with the given number,
    so the target is the same `Account` object exactly when the two numbers
    resolve to the same list position, i.e. when `fromNum = toNum`; in that
    case the thread blocks forever on the mutex it already holds
    (`deadlock`), with the debit already applied;
  * otherwise `toAccount.balance += amount` and return `true`, upon which
    `userMenu` records a `"Transfer"` transaction.

The third component is the list of account numbers whose mutexes were
acquired, in acquisition order. -/
def Bank.transferOp (b : Bank) (fromNum : Int) (toNum : Int) (amount : Int) :
    TransferOutcome × Bank × List Int :=
  match b.findAccount fromNum with
  | none => (.fail, b, [])
  | some fromAcc =>
      match b.findAccount toNum with
      | none => (.fail, b, [])
      | some _ =>
          if amount ≤ 0 ∨ fromAcc.balance < amount then (.fail, b, [fromNum])
          else
            let debited := updateFirst b.accounts fromNum
              (fun a => { a with balance := a.balance - amount })
            if fromNum = toNum then
              (.deadlock, { b with accounts := debited }, [fromNum])
            else
              let credited := updateFirst debited toNum
                (fun a => { a with balance := a.balance + amount })
              (.ok,
               ({ b with accounts := credited
                }).recordTransaction "Transfer" amount fromNum toNum,
               [fromNum, toNum])

/-- The balance the CLI observes for account number `n` (via `display` /
lookup), `none` when the number is unregistered. -/
def Bank.balanceOf (b : Bank) (n : Int) : Option Int :=
  (b.findAccount n).map (fun a => a.balance)

/-- Sum of all registered balances. -/
def Bank.totalBalance (b : Bank) : Int :=
  (b.accounts.map (fun a => a.balance)).sum

/-- The registered account numbers, in registry order. -/
def Bank.accountNumbers (b : Bank) : List Int :=
  b.accounts.map (fun a => a.accountNumber)

/-- One public-API operation, as issued through the menu. -/
inductive Op
  | create (name : String) (type : String) (initialBalance : Int)
  | deposit (accNum : Int) (amount : Int)
  | withdraw (accNum : Int) (amount : Int)
  | transfer (fromNum : Int) (toNum : Int) (amount : Int)
  deriving DecidableEq, Repr

/-- The bank state after one operation (results discarded). -/
def Bank.applyOp (b : Bank) : Op → Bank
  | .create name type init => (b.createAccount name type init).2
  | .deposit n a => (b.depositOp n a).2
  | .withdraw n a => (b.withdrawOp n a).2
  | .transfer f t a => (b.transferOp f t a).2.1

/-- The bank state after a sequence of operations. -/
def Bank.run (b : Bank) (ops : List Op) : Bank :=
  ops.foldl Bank.applyOp b

/-- Whether an operation is a `create` with a nonnegative initial balance
(trivially true for the other operations). -/
def Op.createNonNeg : Op → Bool
  | .create _ _ init => 0 ≤ init
  | _ => true

/-- Every registered balance is nonnegative. -/
def Bank.NonNeg (b : Bank) : Prop :=
  ∀ a ∈ b.accounts, 0 ≤ a.balance

instance (b : Bank) : Decidable b.NonNeg := by
  unfold Bank.NonNeg; infer_instance

/-- Registry invariant: account numbers are pairwise distinct and all lie
strictly below the `nextAccountNumber` counter. -/
def Bank.Inv (b : Bank) : Prop :=
  b.accountNumbers.Nodup ∧ ∀ x ∈ b.accountNumbers, x < b.nextAccountNumber

/-- A small sample ledger used to instantiate the general theorems:
account 1000 (Alice, 100) and account 1001 (Bob, 50). -/
def demoBank : Bank :=
  Bank.initial.run [Op.create "Alice" "Savings" 100, Op.create "Bob" "Current" 50]

/-! ### Lemmas about the registry scan and first-match update -/

theorem findAcc_mem {l : List Account} {n : Int} {acc : Account}
    (h : findAcc l n = some acc) : acc ∈ l := by
  induction l with
  | nil => simp [findAcc] at h
  | cons a rest ih =>
      by_cases ha : a.accountNumber = n
      · simp [findAcc, ha] at h; simp [h]
      · simp [findAcc, ha] at h
        exact List.mem_cons_of_mem _ (ih h)

theorem findAcc_number {l : List Account} {n : Int} {acc : Account}
    (h : findAcc l n = some acc) : acc.accountNumber = n := by
  induction l with
  | nil => simp [findAcc] at h
  | cons a rest ih =>
      by_cases ha : a.accountNumber = n
      · simp [findAcc, ha] at h; rw [← h]; exact ha
      · simp [findAcc, ha] at h; exact ih h

theorem findAcc_append_left_none {l1 l2 : List Account} {m : Int}
    (h : ∀ x ∈ l1, ¬ x.accountNumber = m) :
    findAcc (l1 ++ l2) m = findAcc l2 m := by
  induction l1 with
  | nil => rfl
  | cons a rest ih =>
      have ha := h a (List.mem_cons_self a rest)
      simp only [List.cons_append, findAcc, if_neg ha]
      exact ih fun x hx => h x (List.mem_cons_of_mem _ hx)

theorem updateFirst_of_findAcc_none {l : List Account} {n : Int}
    {f : Account → Account} (h : findAcc l n = none) :
    updateFirst l n f = l := by
  induction l with
  | nil => rfl
  | cons a rest ih =>
      by_cases ha : a.accountNumber = n
      · simp [findAcc, ha] at h
      · simp [findAcc, ha] at h
        simp [updateFirst, ha, ih h]

/-- The first account numbered `n` splits the registry as `l1 ++ acc :: l2`
with no match in `l1`, and `updateFirst` rewrites exactly that occurrence. -/
theorem updateFirst_decomp {l : List Account} {n : Int} {acc : Account}
    (f : Account → Account) (h : findAcc l n = some acc) :
    ∃ l1 l2, l = l1 ++ acc :: l2 ∧ (∀ x ∈ l1, ¬ x.accountNumber = n) ∧
      acc.accountNumber = n ∧ updateFirst l n f = l1 ++ f acc :: l2 := by
  induction l with
  | nil => simp [findAcc] at h
  | cons a rest ih =>
      by_cases ha : a.accountNumber = n
      · simp [findAcc, ha] at h
        subst h
        exact ⟨[], rest, by simp, by simp, ha, by simp [updateFirst, ha]⟩
      · simp [findAcc, ha] at h
        obtain ⟨l1, l2, hl, hl1, hacc, hupd⟩ := ih h
        refine ⟨a :: l1, l2, by simp [hl], ?_, hacc, ?_⟩
        · intro x hx
          rcases List.mem_cons.mp hx with hxa | hx1
          · rw [hxa]; exact ha
          · exact hl1 x hx1
        · simp [updateFirst, ha, hupd]

theorem findAcc_updateFirst_self {l : List Account} {n : Int} {acc : Account}
    (f : Account → Account) (h : findAcc l n = some acc)
    (hf : (f acc).accountNumber = acc.accountNumber) :
    findAcc (updateFirst l n f) n = some (f acc) := by
  obtain ⟨l1, l2, _, hl1, hacc, hupd⟩ := updateFirst_decomp f h
  rw [hupd, findAcc_append_left_none hl1, findAcc]
  rw [if_pos (by rw [hf, hacc])]

theorem findAcc_congr_mid (l1 l2 : List Account) (x y : Account) (m : Int)
    (hx : x.accountNumber = y.accountNumber) (hy : ¬ y.accountNumber = m) :
    findAcc (l1 ++ x :: l2) m = findAcc (l1 ++ y :: l2) m := by
  induction l1 with
  | nil =>
      simp only [List.nil_append, findAcc]
      rw [if_neg (hx ▸ hy), if_neg hy]
  | cons a rest ih =>
      by_cases ham : a.accountNumber = m
      · simp [findAcc, ham]
      · simp only [List.cons_append, findAcc, if_neg ham]
        exact ih

theorem findAcc_updateFirst_ne {l : List Account} {n m : Int} {acc : Account}
    (f : Account → Account) (h : findAcc l n = some acc)
    (hf : (f acc).accountNumber = acc.accountNumber) (hm : m ≠ n) :
    findAcc (updateFirst l n f) m = findAcc l m := by
  obtain ⟨l1, l2, hl, _, hacc, hupd⟩ := updateFirst_decomp f h
  rw [hupd]
  conv_rhs => rw [hl]
  exact findAcc_congr_mid l1 l2 (f acc) acc m hf
    (by rw [hacc]; exact fun hc => hm hc.symm)

theorem numbers_updateFirst {l : List Account} {n : Int} {acc : Account}
    (f : Account → Account) (h : findAcc l n = some acc)
    (hf : (f acc).accountNumber = acc.accountNumber) :
    (updateFirst l n f).map (fun a => a.accountNumber) =
      l.map (fun a => a.accountNumber) := by
  obtain ⟨l1, l2, hl, _, _, hupd⟩ := updateFirst_decomp f h
  rw [hupd, hl]; simp [hf]

theorem sum_updateFirst {l : List Account} {n : Int} {acc : Account}
    (f : Account → Account) (h : findAcc l n = some acc) :
    ((updateFirst l n f).map (fun a => a.balance)).sum =
      (l.map (fun a => a.balance)).sum - acc.balance + (f acc).balance := by
  obtain ⟨l1, l2, hl, _, _, hupd⟩ := updateFirst_decomp f h
  rw [hupd, hl]; simp; ring

theorem mem_updateFirst {l : List Account} {n : Int} {acc : Account}
    (f : Account → Account) (h : findAcc l n = some acc)
    {x : Account} (hx : x ∈ updateFirst l n f) : x ∈ l ∨ x = f acc := by
  obtain ⟨l1, l2, hl, _, _, hupd⟩ := updateFirst_decomp f h
  rw [hupd] at hx
  rcases List.mem_append.mp hx with h1 | h2
  · exact Or.inl (by rw [hl]; exact List.mem_append.mpr (Or.inl h1))
  · rcases List.mem_cons.mp h2 with hfa | h2
    · exact Or.inr hfa
    · exact Or.inl (by rw [hl]; simp [h2])

/-- With pairwise-distinct account numbers, the scan started at a registered
account's own number returns exactly that account. -/
theorem findAcc_of_nodup {l : List Account} {X : Account}
    (hnd : (l.map (fun a => a.accountNumber)).Nodup) (hX : X ∈ l) :
    findAcc l X.accountNumber = some X := by
  induction l with
  | nil => simp at hX
  | cons a rest ih =>
      rcases List.mem_cons.mp hX with rfl | hX'
      · simp [findAcc]
      · by_cases ha : a.accountNumber = X.accountNumber
        · exfalso
          have : X.accountNumber ∈ rest.map (fun a => a.accountNumber) :=
            List.mem_map.mpr ⟨X, hX', rfl⟩
          rw [List.map_cons, List.nodup_cons] at hnd
          exact hnd.1 (ha ▸ this)
        · rw [List.map_cons, List.nodup_cons] at hnd
          simp only [findAcc, if_neg ha]
          exact ih hnd.2 hX'

/-! ### Branch equations for the ledger operations -/

theorem depositOp_none {b : Bank} {n a : Int} (h : b.findAccount n = none) :
    b.depositOp n a = (false, b) := by
  simp [Bank.depositOp, h]

theorem depositOp_invalid {b : Bank} {n a : Int} {acc : Account}
    (h : b.findAccount n = some acc) (ha : a ≤ 0) :
    b.depositOp n a = (false, b) := by
  simp [Bank.depositOp, h, Account.deposit, ha]

theorem depositOp_ok {b : Bank} {n a : Int} {acc : Account}
    (h : b.findAccount n = some acc) (ha : ¬ a ≤ 0) :
    b.depositOp n a =
      (true,
       ({ b with accounts := (updateFirst b.accounts n (fun _ => { acc with balance := acc.balance + a }))
        }).recordTransaction "Deposit" a n (-1)) := by
  simp [Bank.depositOp, h, Account.deposit, ha]

theorem withdrawOp_none {b : Bank} {n a : Int} (h : b.findAccount n = none) :
    b.withdrawOp n a = (false, b) := by
  simp [Bank.withdrawOp, h]

theorem withdrawOp_invalid {b : Bank} {n a : Int} {acc : Account}
    (h : b.findAccount n = some acc) (ha : a ≤ 0 ∨ acc.balance < a) :
    b.withdrawOp n a = (false, b) := by
  simp [Bank.withdrawOp, h, Account.withdraw, ha]

theorem withdrawOp_ok {b : Bank} {n a : Int} {acc : Account}
    (h : b.findAccount n = some acc) (ha : ¬ (a ≤ 0 ∨ acc.balance < a)) :
    b.withdrawOp n a =
      (true,
       ({ b with accounts := (updateFirst b.accounts n (fun _ => { acc with balance := acc.balance - a }))
        }).recordTransaction "Withdraw" a n (-1)) := by
  simp [Bank.withdrawOp, h, Account.withdraw, ha]

theorem transferOp_fromNone {b : Bank} {fn tn a : Int}
    (h : b.findAccount fn = none) :
    b.transferOp fn tn a = (.fail, b, []) := by
  simp [Bank.transferOp, h]

theorem transferOp_toNone {b : Bank} {fn tn a : Int} {fromAcc : Account}
    (hf : b.findAccount fn = some fromAcc) (ht : b.findAccount tn = none) :
    b.transferOp fn tn a = (.fail, b, []) := by
  simp [Bank.transferOp, hf, ht]

theorem transferOp_invalid {b : Bank} {fn tn a : Int} {fromAcc toAcc : Account}
    (hf : b.findAccount fn = some fromAcc) (ht : b.findAccount tn = some toAcc)
    (ha : a ≤ 0 ∨ fromAcc.balance < a) :
    b.transferOp fn tn a = (.fail, b, [fn]) := by
  simp [Bank.transferOp, hf, ht, ha]

theorem transferOp_self {b : Bank} {fn tn a : Int} {fromAcc toAcc : Account}
    (hf : b.findAccount fn = some fromAcc) (ht : b.findAccount tn = some toAcc)
    (ha : ¬ (a ≤ 0 ∨ fromAcc.balance < a)) (heq : fn = tn) :
    b.transferOp fn tn a =
      (.deadlock,
       { b with accounts := (updateFirst b.accounts fn (fun x => { x with balance := x.balance - a })) },
       [fn]) := by
  subst heq
  simp [Bank.transferOp, hf, ha]

theorem transferOp_ok {b : Bank} {fn tn a : Int} {fromAcc toAcc : Account}
    (hf : b.findAccount fn = some fromAcc) (ht : b.findAccount tn = some toAcc)
    (ha : ¬ (a ≤ 0 ∨ fromAcc.balance < a)) (hne : fn ≠ tn) :
    b.transferOp fn tn a =
      (.ok,
       ({ b with accounts := (updateFirst (updateFirst b.accounts fn (fun x => { x with balance := x.balance - a })) tn (fun x => { x with balance := x.balance + a }))
        }).recordTransaction "Transfer" a fn tn,
       [fn, tn]) := by
  simp [Bank.transferOp, hf, ht, ha, hne]

theorem applyOp_create (b : Bank) (name type : String) (init : Int) :
    b.applyOp (.create name type init) = (b.createAccount name type init).2 := rfl

theorem applyOp_deposit (b : Bank) (n a : Int) :
    b.applyOp (.deposit n a) = (b.depositOp n a).2 := rfl

theorem applyOp_withdraw (b : Bank) (n a : Int) :
    b.applyOp (.withdraw n a) = (b.withdrawOp n a).2 := rfl

theorem applyOp_transfer (b : Bank) (fn tn a : Int) :
    b.applyOp (.transfer fn tn a) = (b.transferOp fn tn a).2.1 := rfl

/-! ### Registry invariants -/

theorem numbers_updateFirst_of_hf {l : List Account} {n : Int}
    (f : Account → Account) (hf : ∀ a, (f a).accountNumber = a.accountNumber) :
    (updateFirst l n f).map (fun a => a.accountNumber) =
      l.map (fun a => a.accountNumber) := by
  cases h : findAcc l n with
  | none => rw [updateFirst_of_findAcc_none h]
  | some acc => exact numbers_updateFirst f h (hf acc)

/-- Each operation either leaves the registered numbers and the counter
unchanged, or (for `createAccount`) appends exactly the current counter value
and bumps the counter by one. -/
theorem applyOp_registry (b : Bank) (op : Op) :
    ((b.applyOp op).accountNumbers = b.accountNumbers ∧
      (b.applyOp op).nextAccountNumber = b.nextAccountNumber) ∨
    ((b.applyOp op).accountNumbers = b.accountNumbers ++ [b.nextAccountNumber] ∧
      (b.applyOp op).nextAccountNumber = b.nextAccountNumber + 1) := by
  cases op with
  | create name type init =>
      right
      constructor
      · simp [Bank.applyOp, Bank.createAccount, Bank.accountNumbers]
      · simp [Bank.applyOp, Bank.createAccount]
  | deposit n a =>
      left
      rw [applyOp_deposit]
      cases h : b.findAccount n with
      | none => rw [depositOp_none h]; exact ⟨rfl, rfl⟩
      | some acc =>
          by_cases hamt : a ≤ 0
          · rw [depositOp_invalid h hamt]; exact ⟨rfl, rfl⟩
          · rw [depositOp_ok h hamt]
            refine ⟨?_, rfl⟩
            simp only [Bank.recordTransaction, Bank.accountNumbers]
            exact numbers_updateFirst (fun _ => { acc with balance := acc.balance + a }) h rfl
  | withdraw n a =>
      left
      rw [applyOp_withdraw]
      cases h : b.findAccount n with
      | none => rw [withdrawOp_none h]; exact ⟨rfl, rfl⟩
      | some acc =>
          by_cases hamt : a ≤ 0 ∨ acc.balance < a
          · rw [withdrawOp_invalid h hamt]; exact ⟨rfl, rfl⟩
          · rw [withdrawOp_ok h hamt]
            refine ⟨?_, rfl⟩
            simp only [Bank.recordTransaction, Bank.accountNumbers]
            exact numbers_updateFirst (fun _ => { acc with balance := acc.balance - a }) h rfl
  | transfer fn tn a =>
      left
      rw [applyOp_transfer]
      cases hf : b.findAccount fn with
      | none => rw [transferOp_fromNone hf]; exact ⟨rfl, rfl⟩
      | some fromAcc =>
          cases ht : b.findAccount tn with
          | none => rw [transferOp_toNone hf ht]; exact ⟨rfl, rfl⟩
          | some toAcc =>
              by_cases hamt : a ≤ 0 ∨ fromAcc.balance < a
              · rw [transferOp_invalid hf ht hamt]; exact ⟨rfl, rfl⟩
              · by_cases hft : fn = tn
                · rw [transferOp_self hf ht hamt hft]
                  refine ⟨?_, rfl⟩
                  simp only [Bank.accountNumbers]
                  exact numbers_updateFirst (fun x => { x with balance := x.balance - a }) hf rfl
                · rw [transferOp_ok hf ht hamt hft]
                  refine ⟨?_, rfl⟩
                  simp only [Bank.recordTransaction, Bank.accountNumbers]
                  rw [numbers_updateFirst_of_hf (fun x => { x with balance := x.balance + a }) (fun x => rfl)]
                  exact numbers_updateFirst (fun x => { x with balance := x.balance - a }) hf rfl

theorem applyOp_next_mono (b : Bank) (op : Op) :
    b.nextAccountNumber ≤ (b.applyOp op).nextAccountNumber := by
  rcases applyOp_registry b op with ⟨_, h⟩ | ⟨_, h⟩
  · rw [h]
  · rw [h]; exact le_of_lt (by simp)

theorem applyOp_inv {b : Bank} (op : Op) (h : b.Inv) : (b.applyOp op).Inv := by
  obtain ⟨hnd, hbd⟩ := h
  rcases applyOp_registry b op with ⟨hnum, hnext⟩ | ⟨hnum, hnext⟩
  · exact ⟨hnum ▸ hnd, fun x hx => hnext ▸ hbd x (hnum ▸ hx)⟩
  · constructor
    · rw [hnum]
      simp only [List.nodup_append, List.nodup_cons, List.not_mem_nil,
        not_false_iff, List.nodup_nil, and_true, true_and]
      refine ⟨hnd, ?_⟩
      intro x hx hy
      rw [List.mem_singleton] at hy
      subst hy
      exact absurd (hbd _ hx) (lt_irrefl _)
    · intro x hx
      rw [hnum] at hx
      rw [hnext]
      rcases List.mem_append.mp hx with hx | hx
      · exact lt_trans (hbd x hx) (by simp)
      · rw [List.mem_singleton] at hx; subst hx; simp

theorem run_inv (ops : List Op) : (Bank.initial.run ops).Inv := by
  have main : ∀ (ops : List Op) (b : Bank), b.Inv → (b.run ops).Inv := by
    intro ops
    induction ops with
    | nil => intro b h; exact h
    | cons op rest ih =>
        intro b h
        exact ih (b.applyOp op) (applyOp_inv op h)
  exact main ops Bank.initial ⟨by simp [Bank.initial, Bank.accountNumbers],
    by simp [Bank.initial, Bank.accountNumbers]⟩

/-! ### Preservation of balance nonnegativity -/

theorem applyOp_nonneg {b : Bank} {op : Op} (hnn : b.NonNeg)
    (hop : op.createNonNeg = true) : (b.applyOp op).NonNeg := by
  cases op with
  | create name type init =>
      have hinit : (0 : Int) ≤ init := by
        simpa [Op.createNonNeg] using hop
      rw [applyOp_create]
      intro x hx
      simp only [Bank.createAccount, List.mem_append, List.mem_singleton] at hx
      rcases hx with hx | hx
      · exact hnn x hx
      · subst hx; exact hinit
  | deposit n a =>
      rw [applyOp_deposit]
      cases h : b.findAccount n with
      | none => rw [depositOp_none h]; exact hnn
      | some acc =>
          by_cases hamt : a ≤ 0
          · rw [depositOp_invalid h hamt]; exact hnn
          · rw [depositOp_ok h hamt]
            intro x hx
            simp only [Bank.recordTransaction] at hx
            rcases mem_updateFirst (fun _ => { acc with balance := acc.balance + a }) h hx
              with hx | hx
            · exact hnn x hx
            · subst hx
              have hacc := hnn acc (findAcc_mem h)
              simp only
              omega
  | withdraw n a =>
      rw [applyOp_withdraw]
      cases h : b.findAccount n with
      | none => rw [withdrawOp_none h]; exact hnn
      | some acc =>
          by_cases hamt : a ≤ 0 ∨ acc.balance < a
          · rw [withdrawOp_invalid h hamt]; exact hnn
          · rw [withdrawOp_ok h hamt]
            intro x hx
            simp only [Bank.recordTransaction] at hx
            rcases mem_updateFirst (fun _ => { acc with balance := acc.balance - a }) h hx
              with hx | hx
            · exact hnn x hx
            · subst hx
              simp only
              omega
  | transfer fn tn a =>
      rw [applyOp_transfer]
      cases hf : b.findAccount fn with
      | none => rw [transferOp_fromNone hf]; exact hnn
      | some fromAcc =>
          cases ht : b.findAccount tn with
          | none => rw [transferOp_toNone hf ht]; exact hnn
          | some toAcc =>
              by_cases hamt : a ≤ 0 ∨ fromAcc.balance < a
              · rw [transferOp_invalid hf ht hamt]; exact hnn
              · have hdeb : ∀ x ∈ updateFirst b.accounts fn
                    (fun x => { x with balance := x.balance - a }), 0 ≤ x.balance := by
                  intro x hx
                  rcases mem_updateFirst (fun x => { x with balance := x.balance - a }) hf hx
                    with hx | hx
                  · exact hnn x hx
                  · subst hx
                    have := hnn fromAcc (findAcc_mem hf)
                    simp only
                    omega
                by_cases hft : fn = tn
                · rw [transferOp_self hf ht hamt hft]
                  exact hdeb
                · rw [transferOp_ok hf ht hamt hft]
                  intro x hx
                  simp only [Bank.recordTransaction] at hx
                  cases ht2 : findAcc (updateFirst b.accounts fn
                      (fun x => { x with balance := x.balance - a })) tn with
                  | none =>
                      rw [updateFirst_of_findAcc_none ht2] at hx
                      exact hdeb x hx
                  | some acc2 =>
                      rcases mem_updateFirst (fun x => { x with balance := x.balance + a }) ht2 hx
                        with hx | hx
                      · exact hdeb x hx
                      · subst hx
                        have := hdeb acc2 (findAcc_mem ht2)
                        simp only
                        omega

theorem run_nonneg_aux (ops : List Op) :
    ∀ b : Bank, b.NonNeg → (∀ op ∈ ops, op.createNonNeg = true) →
      (b.run ops).NonNeg := by
  induction ops with
  | nil => intro b h _; exact h
  | cons op rest ih =>
      intro b h hops
      exact ih (b.applyOp op)
        (applyOp_nonneg h (hops op (List.mem_cons_self op rest)))
        (fun o ho => hops o (List.mem_cons_of_mem _ ho))

/-! ### Claim theorems -/

/-- C1: the claim — that `transfer` acquires the two account locks in
identity order (lower account first), never strictly in from-then-to order —
is FALSE of the code.  `Account::transfer` acquires the calling (from)
account's mutex first and the target's mutex second, whatever the direction:
with registered accounts 1000 and 1001, the transfer 1001 → 1000 acquires
mutex 1001 first although 1000 < 1001, exactly the from-then-to ordering the
specification forbids as a deadlock hazard. -/
theorem transfer_locks_from_account_first :
    (demoBank.transferOp 1001 1000 30).2.2 = [1001, 1000] ∧
    ((1000 : Int) < 1001) ∧
    (demoBank.transferOp 1000 1001 30).2.2 = [1000, 1001] := by decide

/-- C4: `withdraw(amount)` succeeds and decreases the balance by exactly
`amount` when `0 < amount ≤ balance`; it fails with the balance unchanged
when `amount` exceeds the balance, and also when `amount ≤ 0`.  (The source
reports both failures as the same `false`; the spec's `InsufficientFunds` /
`InvalidAmount` labels name the two conditions.) -/
theorem withdraw_spec (a : Account) (amount : Int) :
    (0 < amount → amount ≤ a.balance →
        a.withdraw amount = (true, { a with balance := a.balance - amount })) ∧
    (a.balance < amount → a.withdraw amount = (false, a)) ∧
    (amount ≤ 0 → a.withdraw amount = (false, a)) := by
  refine ⟨?_, ?_, ?_⟩
  · intro hpos hle
    rw [Account.withdraw, if_neg (by omega)]
  · intro hlt
    rw [Account.withdraw, if_pos (Or.inr hlt)]
  · intro hle
    rw [Account.withdraw, if_pos (Or.inl hle)]

/-- Witness for C4 on account 1000 with balance 100: withdrawing 30
succeeds leaving 70; withdrawing 200 and withdrawing −5 both fail with the
balance untouched. -/
theorem withdraw_spec_witness :
    Account.withdraw ⟨1000, "Alice", 100, "Savings"⟩ 30 =
      (true, ⟨1000, "Alice", 70, "Savings"⟩) ∧
    Account.withdraw ⟨1000, "Alice", 100, "Savings"⟩ 200 =
      (false, ⟨1000, "Alice", 100, "Savings"⟩) ∧
    Account.withdraw ⟨1000, "Alice", 100, "Savings"⟩ (-5) =
      (false, ⟨1000, "Alice", 100, "Savings"⟩) :=
  ⟨(withdraw_spec ⟨1000, "Alice", 100, "Savings"⟩ 30).1 (by decide) (by decide),
   (withdraw_spec ⟨1000, "Alice", 100, "Savings"⟩ 200).2.1 (by decide),
   (withdraw_spec ⟨1000, "Alice", 100, "Savings"⟩ (-5)).2.2 (by decide)⟩

/-- C5: `deposit(amount)` succeeds and increases the balance by exactly
`amount` when `amount > 0`, and fails with no mutation when `amount ≤ 0`. -/
theorem deposit_spec (a : Account) (amount : Int) :
    (0 < amount →
        a.deposit amount = (true, { a with balance := a.balance + amount })) ∧
    (amount ≤ 0 → a.deposit amount = (false, a)) := by
  refine ⟨?_, ?_⟩
  · intro hpos
    rw [Account.deposit, if_neg (by omega)]
  · intro hle
    rw [Account.deposit, if_pos hle]

/-- Witness for C5 on account 1000 with balance 100: depositing 40 succeeds
leaving 140; depositing 0 fails with the balance untouched. -/
theorem deposit_spec_witness :
    Account.deposit ⟨1000, "Alice", 100, "Savings"⟩ 40 =
      (true, ⟨1000, "Alice", 140, "Savings"⟩) ∧
    Account.deposit ⟨1000, "Alice", 100, "Savings"⟩ 0 =
      (false, ⟨1000, "Alice", 100, "Savings"⟩) :=
  ⟨(deposit_spec ⟨1000, "Alice", 100, "Savings"⟩ 40).1 (by decide),
   (deposit_spec ⟨1000, "Alice", 100, "Savings"⟩ 0).2 (by decide)⟩

/-- C9: `createAccount` performs no validation of `initialBalance`: for every
integer initial balance — zero and negative included — it registers a new
account whose balance is exactly `initialBalance`, numbered with the current
counter value, and returns that number. -/
theorem createAccount_no_validation (b : Bank) (name : String) (type : String)
    (initialBalance : Int) :
    b.createAccount name type initialBalance =
      (b.nextAccountNumber,
       { b with
           accounts := b.accounts ++ [⟨b.nextAccountNumber, name, initialBalance, type⟩],
           nextAccountNumber := b.nextAccountNumber + 1 }) := rfl

/-- C3 (counterexample): the claim fails as stated — `createAccount` is part
of the public API and accepts a negative initial balance, so after the single
operation `createAccount("A", "Savings", -5)` the registry holds account
1000 with balance −5, a negative balance observed between operations. -/
theorem negative_initial_balance_cex :
    (Bank.initial.run [Op.create "A" "Savings" (-5)]).balanceOf 1000 = some (-5) ∧
    ¬ (Bank.initial.run [Op.create "A" "Savings" (-5)]).NonNeg := by decide

/-- C3 (amended): for every sequence of operations through the public API in
which every `createAccount` supplies a nonnegative initial balance, no
account's balance is ever observed negative between operations. -/
theorem run_nonneg_of_nonneg_creates (ops : List Op)
    (h : ∀ op ∈ ops, op.createNonNeg = true) :
    (Bank.initial.run ops).NonNeg :=
  run_nonneg_aux ops Bank.initial (fun a ha => absurd ha (List.not_mem_nil a)) h

/-- Witness for C3 (amended): a concrete mixed sequence — create with 100,
deposit 40, withdraw 70, and a failing overdraft attempt — ends with every
balance nonnegative. -/
theorem run_nonneg_of_nonneg_creates_witness :
    (Bank.initial.run [Op.create "A" "Savings" 100, Op.deposit 1000 40,
      Op.withdraw 1000 70, Op.withdraw 1000 500]).NonNeg :=
  run_nonneg_of_nonneg_creates
    [Op.create "A" "Savings" 100, Op.deposit 1000 40,
      Op.withdraw 1000 70, Op.withdraw 1000 500] (by decide)

/-- C10 (counterexample): the claim fails as stated — a self-transfer of a
valid amount does pass validation, but it does NOT return success: after
debiting, `transfer` tries to lock the same account's `std::mutex` a second
time while holding it, which never completes (undefined behaviour /
deadlock).  On account 1000 with balance 100, a self-transfer of 30 ends
deadlocked, with the balance left debited at 70, not unchanged. -/
theorem self_transfer_cex :
    ((Bank.initial.run [Op.create "A" "Savings" 100]).transferOp 1000 1000 30).1
        = TransferOutcome.deadlock ∧
    ((Bank.initial.run [Op.create "A" "Savings" 100]).transferOp 1000 1000 30).1
        ≠ TransferOutcome.ok ∧
    ((Bank.initial.run [Op.create "A" "Savings" 100]).transferOp 1000 1000 30).2.1.balanceOf 1000
        = some 70 := by decide

/-- C10 (amended): self-transfer is not rejected by any explicit check — for
every registered account `x` and amount `0 < a ≤ balance(x)`, the transfer
from `x` to itself passes validation and debits `x` by `a`, but then blocks
forever re-acquiring `x`'s own mutex: the outcome is deadlock rather than
success, the balance is left at `balance(x) − a`, and no transaction is
recorded. -/
theorem self_transfer_deadlocks (b : Bank) (x : Account) (a : Int)
    (hnd : b.accountNumbers.Nodup) (hx : x ∈ b.accounts)
    (hpos : 0 < a) (hle : a ≤ x.balance) :
    (b.transferOp x.accountNumber x.accountNumber a).1 = TransferOutcome.deadlock ∧
    (b.transferOp x.accountNumber x.accountNumber a).2.1.balanceOf x.accountNumber
      = some (x.balance - a) ∧
    (b.transferOp x.accountNumber x.accountNumber a).2.1.transactions
      = b.transactions := by
  have hfind : b.findAccount x.accountNumber = some x := findAcc_of_nodup hnd hx
  have hamt : ¬ (a ≤ 0 ∨ x.balance < a) := by omega
  rw [transferOp_self hfind hfind hamt rfl]
  refine ⟨rfl, ?_, rfl⟩
  simp only [Bank.balanceOf, Bank.findAccount]
  rw [findAcc_updateFirst_self (fun y => { y with balance := y.balance - a }) hfind rfl]
  rfl

/-- Witness for C10 (amended) on the sample ledger: a self-transfer of 30 on
account 1000 (balance 100) deadlocks with the balance debited to 70 and no
transaction recorded. -/
theorem self_transfer_deadlocks_witness :
    (demoBank.transferOp 1000 1000 30).1 = TransferOutcome.deadlock ∧
    (demoBank.transferOp 1000 1000 30).2.1.balanceOf 1000 = some 70 ∧
    (demoBank.transferOp 1000 1000 30).2.1.transactions = demoBank.transactions :=
  self_transfer_deadlocks demoBank ⟨1000, "Alice", 100, "Savings"⟩ 30
    (by decide) (by decide) (by decide) (by decide)

/-- C2: for distinct registered accounts `X`, `Y` (under the registry
invariant of pairwise-distinct numbers) and any amount `0 < A ≤ balance(X)`,
the transfer succeeds, `balance(X)` drops by exactly `A`, `balance(Y)` rises
by exactly `A`, every other account's balance is untouched, and the sum of
all registered balances is unchanged. -/
theorem transfer_conservation (b : Bank) (X Y : Account) (A : Int)
    (hnd : b.accountNumbers.Nodup) (hX : X ∈ b.accounts) (hY : Y ∈ b.accounts)
    (hne : X.accountNumber ≠ Y.accountNumber) (hpos : 0 < A) (hle : A ≤ X.balance) :
    (b.transferOp X.accountNumber Y.accountNumber A).1 = TransferOutcome.ok ∧
    (b.transferOp X.accountNumber Y.accountNumber A).2.1.balanceOf X.accountNumber
      = some (X.balance - A) ∧
    (b.transferOp X.accountNumber Y.accountNumber A).2.1.balanceOf Y.accountNumber
      = some (Y.balance + A) ∧
    (∀ m : Int, m ≠ X.accountNumber → m ≠ Y.accountNumber →
      (b.transferOp X.accountNumber Y.accountNumber A).2.1.balanceOf m = b.balanceOf m) ∧
    (b.transferOp X.accountNumber Y.accountNumber A).2.1.totalBalance = b.totalBalance := by
  have hfX : b.findAccount X.accountNumber = some X := findAcc_of_nodup hnd hX
  have hfY : b.findAccount Y.accountNumber = some Y := findAcc_of_nodup hnd hY
  have hamt : ¬ (A ≤ 0 ∨ X.balance < A) := by omega
  have hYdeb : findAcc (updateFirst b.accounts X.accountNumber
      (fun x => { x with balance := x.balance - A })) Y.accountNumber = some Y := by
    rw [findAcc_updateFirst_ne (fun x => { x with balance := x.balance - A }) hfX rfl
      (fun hc => hne hc.symm)]
    exact hfY
  rw [transferOp_ok hfX hfY hamt hne]
  refine ⟨rfl, ?_, ?_, ?_, ?_⟩
  · simp only [Bank.recordTransaction, Bank.balanceOf, Bank.findAccount]
    rw [findAcc_updateFirst_ne (fun x => { x with balance := x.balance + A }) hYdeb rfl hne]
    rw [findAcc_updateFirst_self (fun x => { x with balance := x.balance - A }) hfX rfl]
    rfl
  · simp only [Bank.recordTransaction, Bank.balanceOf, Bank.findAccount]
    rw [findAcc_updateFirst_self (fun x => { x with balance := x.balance + A }) hYdeb rfl]
    rfl
  · intro m hmX hmY
    simp only [Bank.recordTransaction, Bank.balanceOf, Bank.findAccount]
    rw [findAcc_updateFirst_ne (fun x => { x with balance := x.balance + A }) hYdeb rfl hmY]
    rw [findAcc_updateFirst_ne (fun x => { x with balance := x.balance - A }) hfX rfl hmX]
  · simp only [Bank.recordTransaction, Bank.totalBalance]
    rw [sum_updateFirst (fun x => { x with balance := x.balance + A }) hYdeb]
    rw [sum_updateFirst (fun x => { x with balance := x.balance - A }) hfX]
    simp only
    ring

/-- Witness for C2 on the sample ledger (Alice 1000 with 100, Bob 1001 with
50): transferring 30 from 1000 to 1001 succeeds with balances 70 and 80,
other numbers unchanged, and the total still 150. -/
theorem transfer_conservation_witness :
    (demoBank.transferOp 1000 1001 30).1 = TransferOutcome.ok ∧
    (demoBank.transferOp 1000 1001 30).2.1.balanceOf 1000 = some 70 ∧
    (demoBank.transferOp 1000 1001 30).2.1.balanceOf 1001 = some 80 ∧
    (∀ m : Int, m ≠ 1000 → m ≠ 1001 →
      (demoBank.transferOp 1000 1001 30).2.1.balanceOf m = demoBank.balanceOf m) ∧
    (demoBank.transferOp 1000 1001 30).2.1.totalBalance = demoBank.totalBalance :=
  transfer_conservation demoBank ⟨1000, "Alice", 100, "Savings"⟩
    ⟨1001, "Bob", 50, "Current"⟩ 30
    (by decide) (by decide) (by decide) (by decide) (by decide) (by decide)

/-- C6: `createAccount` hands out the current `nextAccountNumber` (which
starts at the base 1000), increments the counter, and registers the account
under that number; across every operation sequence the registered numbers
are pairwise distinct and strictly below the counter (so never reused), and
no operation ever decreases the counter — hence numbers returned by
successive creates increase monotonically. -/
theorem createAccount_numbering :
    (∀ (b : Bank) (name type : String) (init : Int),
        b.createAccount name type init =
          (b.nextAccountNumber,
           { b with
               accounts := b.accounts ++ [⟨b.nextAccountNumber, name, init, type⟩],
               nextAccountNumber := b.nextAccountNumber + 1 })) ∧
    Bank.initial.nextAccountNumber = 1000 ∧
    (∀ ops : List Op, (Bank.initial.run ops).accountNumbers.Nodup) ∧
    (∀ ops : List Op, ∀ x ∈ (Bank.initial.run ops).accountNumbers,
        x < (Bank.initial.run ops).nextAccountNumber) ∧
    (∀ (b : Bank) (op : Op), b.nextAccountNumber ≤ (b.applyOp op).nextAccountNumber) :=
  ⟨fun _ _ _ _ => rfl, rfl, fun ops => (run_inv ops).1, fun ops => (run_inv ops).2,
   applyOp_next_mono⟩

/-- Witness for C6: after two creates the sample ledger `demoBank` holds the
distinct numbers 1000 and 1001, both strictly below the counter 1002, and
the first create on a fresh bank returns exactly 1000. -/
theorem createAccount_numbering_witness :
    Bank.initial.createAccount "Alice" "Savings" 100 =
      (1000, ⟨[⟨1000, "Alice", 100, "Savings"⟩], [], 1001⟩) ∧
    demoBank.accountNumbers.Nodup ∧
    (1001 : Int) < demoBank.nextAccountNumber :=
  ⟨createAccount_numbering.1 Bank.initial "Alice" "Savings" 100,
   createAccount_numbering.2.2.1
     [Op.create "Alice" "Savings" 100, Op.create "Bob" "Current" 50],
   createAccount_numbering.2.2.2.1
     [Op.create "Alice" "Savings" 100, Op.create "Bob" "Current" 50] 1001 (by decide)⟩

/-- C7: a successful deposit, withdrawal, or transfer appends exactly one
transaction record — with the matching type string, the operation's amount,
and the involved account number(s) (`-1` for the absent side) — and a failed
operation appends none. -/
theorem log_fidelity (b : Bank) (n m a : Int) :
    ((b.depositOp n a).1 = true →
        (b.depositOp n a).2.transactions =
          b.transactions ++ [⟨b.transactions.length + 1, "Deposit", a, n, -1⟩]) ∧
    ((b.depositOp n a).1 = false → (b.depositOp n a).2.transactions = b.transactions) ∧
    ((b.withdrawOp n a).1 = true →
        (b.withdrawOp n a).2.transactions =
          b.transactions ++ [⟨b.transactions.length + 1, "Withdraw", a, n, -1⟩]) ∧
    ((b.withdrawOp n a).1 = false → (b.withdrawOp n a).2.transactions = b.transactions) ∧
    ((b.transferOp n m a).1 = TransferOutcome.ok →
        (b.transferOp n m a).2.1.transactions =
          b.transactions ++ [⟨b.transactions.length + 1, "Transfer", a, n, m⟩]) ∧
    ((b.transferOp n m a).1 ≠ TransferOutcome.ok →
        (b.transferOp n m a).2.1.transactions = b.transactions) := by
  refine ⟨?_, ?_, ?_, ?_, ?_, ?_⟩
  · intro hok
    cases h : b.findAccount n with
    | none => rw [depositOp_none h] at hok; simp at hok
    | some acc =>
        by_cases hamt : a ≤ 0
        · rw [depositOp_invalid h hamt] at hok; simp at hok
        · rw [depositOp_ok h hamt]
          simp [Bank.recordTransaction]
  · intro hfail
    cases h : b.findAccount n with
    | none => rw [depositOp_none h]
    | some acc =>
        by_cases hamt : a ≤ 0
        · rw [depositOp_invalid h hamt]
        · rw [depositOp_ok h hamt] at hfail; simp at hfail
  · intro hok
    cases h : b.findAccount n with
    | none => rw [withdrawOp_none h] at hok; simp at hok
    | some acc =>
        by_cases hamt : a ≤ 0 ∨ acc.balance < a
        · rw [withdrawOp_invalid h hamt] at hok; simp at hok
        · rw [withdrawOp_ok h hamt]
          simp [Bank.recordTransaction]
  · intro hfail
    cases h : b.findAccount n with
    | none => rw [withdrawOp_none h]
    | some acc =>
        by_cases hamt : a ≤ 0 ∨ acc.balance < a
        · rw [withdrawOp_invalid h hamt]
        · rw [withdrawOp_ok h hamt] at hfail; simp at hfail
  · intro hok
    cases hf : b.findAccount n with
    | none => rw [transferOp_fromNone hf] at hok; simp at hok
    | some fromAcc =>
        cases ht : b.findAccount m with
        | none => rw [transferOp_toNone hf ht] at hok; simp at hok
        | some toAcc =>
            by_cases hamt : a ≤ 0 ∨ fromAcc.balance < a
            · rw [transferOp_invalid hf ht hamt] at hok; simp at hok
            · by_cases hft : n = m
              · rw [transferOp_self hf ht hamt hft] at hok; simp at hok
              · rw [transferOp_ok hf ht hamt hft]
                simp [Bank.recordTransaction]
  · intro hne
    cases hf : b.findAccount n with
    | none => rw [transferOp_fromNone hf]
    | some fromAcc =>
        cases ht : b.findAccount m with
        | none => rw [transferOp_toNone hf ht]
        | some toAcc =>
            by_cases hamt : a ≤ 0 ∨ fromAcc.balance < a
            · rw [transferOp_invalid hf ht hamt]
            · by_cases hft : n = m
              · rw [transferOp_self hf ht hamt hft]
              · rw [transferOp_ok hf ht hamt hft] at hne
                exact absurd rfl hne

/-- Witness for C7 on the sample ledger: a successful deposit, withdrawal,
and transfer each append exactly their one matching record; a failed deposit,
withdrawal, and transfer leave the log untouched. -/
theorem log_fidelity_witness :
    (demoBank.depositOp 1000 40).2.transactions =
      demoBank.transactions ++ [⟨demoBank.transactions.length + 1, "Deposit", 40, 1000, -1⟩] ∧
    (demoBank.depositOp 1000 (-3)).2.transactions = demoBank.transactions ∧
    (demoBank.withdrawOp 1000 30).2.transactions =
      demoBank.transactions ++ [⟨demoBank.transactions.length + 1, "Withdraw", 30, 1000, -1⟩] ∧
    (demoBank.withdrawOp 1000 500).2.transactions = demoBank.transactions ∧
    (demoBank.transferOp 1000 1001 30).2.1.transactions =
      demoBank.transactions ++ [⟨demoBank.transactions.length + 1, "Transfer", 30, 1000, 1001⟩] ∧
    (demoBank.transferOp 1000 1001 500).2.1.transactions = demoBank.transactions :=
  ⟨(log_fidelity demoBank 1000 1001 40).1 (by decide),
   (log_fidelity demoBank 1000 1001 (-3)).2.1 (by decide),
   (log_fidelity demoBank 1000 1001 30).2.2.1 (by decide),
   (log_fidelity demoBank 1000 1001 500).2.2.2.1 (by decide),
   (log_fidelity demoBank 1000 1001 30).2.2.2.2.1 (by decide),
   (log_fidelity demoBank 1000 1001 500).2.2.2.2.2 (by decide)⟩

/-- C8: every ledger-level deposit, withdrawal, or transfer that fails —
unregistered account number, non-positive amount, or insufficient funds —
reports failure to the caller (`false` / `fail`) and leaves the whole bank
state (all balances and the transaction log) unchanged. -/
theorem failure_atomicity (b : Bank) (n m a : Int) :
    (b.findAccount n = none → b.depositOp n a = (false, b)) ∧
    (a ≤ 0 → b.depositOp n a = (false, b)) ∧
    (b.findAccount n = none → b.withdrawOp n a = (false, b)) ∧
    (a ≤ 0 → b.withdrawOp n a = (false, b)) ∧
    (∀ acc : Account, b.findAccount n = some acc → acc.balance < a →
        b.withdrawOp n a = (false, b)) ∧
    (b.findAccount n = none →
        (b.transferOp n m a).1 = TransferOutcome.fail ∧ (b.transferOp n m a).2.1 = b) ∧
    (b.findAccount m = none →
        (b.transferOp n m a).1 = TransferOutcome.fail ∧ (b.transferOp n m a).2.1 = b) ∧
    (a ≤ 0 →
        (b.transferOp n m a).1 = TransferOutcome.fail ∧ (b.transferOp n m a).2.1 = b) ∧
    (∀ acc : Account, b.findAccount n = some acc → acc.balance < a →
        (b.transferOp n m a).1 = TransferOutcome.fail ∧ (b.transferOp n m a).2.1 = b) := by
  refine ⟨?_, ?_, ?_, ?_, ?_, ?_, ?_, ?_, ?_⟩
  · intro h; rw [depositOp_none h]
  · intro ha
    cases h : b.findAccount n with
    | none => rw [depositOp_none h]
    | some acc => rw [depositOp_invalid h ha]
  · intro h; rw [withdrawOp_none h]
  · intro ha
    cases h : b.findAccount n with
    | none => rw [withdrawOp_none h]
    | some acc => rw [withdrawOp_invalid h (Or.inl ha)]
  · intro acc h hlt; rw [withdrawOp_invalid h (Or.inr hlt)]
  · intro h; rw [transferOp_fromNone h]; exact ⟨rfl, rfl⟩
  · intro hm
    cases hf : b.findAccount n with
    | none => rw [transferOp_fromNone hf]; exact ⟨rfl, rfl⟩
    | some fromAcc => rw [transferOp_toNone hf hm]; exact ⟨rfl, rfl⟩
  · intro ha
    cases hf : b.findAccount n with
    | none => rw [transferOp_fromNone hf]; exact ⟨rfl, rfl⟩
    | some fromAcc =>
        cases ht : b.findAccount m with
        | none => rw [transferOp_toNone hf ht]; exact ⟨rfl, rfl⟩
        | some toAcc => rw [transferOp_invalid hf ht (Or.inl ha)]; exact ⟨rfl, rfl⟩
  · intro acc hacc hlt
    cases ht : b.findAccount m with
    | none => rw [transferOp_toNone hacc ht]; exact ⟨rfl, rfl⟩
    | some toAcc => rw [transferOp_invalid hacc ht (Or.inr hlt)]; exact ⟨rfl, rfl⟩

/-- Witness for C8 on the sample ledger: unknown account 2000, non-positive
amounts, and an overdraft of 500 each make deposit / withdraw / transfer
report failure with the bank bit-for-bit unchanged. -/
theorem failure_atomicity_witness :
    demoBank.depositOp 2000 40 = (false, demoBank) ∧
    demoBank.depositOp 1000 (-3) = (false, demoBank) ∧
    demoBank.withdrawOp 2000 40 = (false, demoBank) ∧
    demoBank.withdrawOp 1000 0 = (false, demoBank) ∧
    demoBank.withdrawOp 1000 500 = (false, demoBank) ∧
    ((demoBank.transferOp 2000 1001 40).1 = TransferOutcome.fail ∧
      (demoBank.transferOp 2000 1001 40).2.1 = demoBank) ∧
    ((demoBank.transferOp 1000 2000 40).1 = TransferOutcome.fail ∧
      (demoBank.transferOp 1000 2000 40).2.1 = demoBank) ∧
    ((demoBank.transferOp 1000 1001 (-7)).1 = TransferOutcome.fail ∧
      (demoBank.transferOp 1000 1001 (-7)).2.1 = demoBank) ∧
    ((demoBank.transferOp 1000 1001 500).1 = TransferOutcome.fail ∧
      (demoBank.transferOp 1000 1001 500).2.1 = demoBank) :=
  ⟨(failure_atomicity demoBank 2000 1001 40).1 (by decide),
   (failure_atomicity demoBank 1000 1001 (-3)).2.1 (by decide),
   (failure_atomicity demoBank 2000 1001 40).2.2.1 (by decide),
   (failure_atomicity demoBank 1000 1001 0).2.2.2.1 (by decide),
   (failure_atomicity demoBank 1000 1001 500).2.2.2.2.1
     ⟨1000, "Alice", 100, "Savings"⟩ (by decide) (by decide),
   (failure_atomicity demoBank 2000 1001 40).2.2.2.2.2.1 (by decide),
   (failure_atomicity demoBank 1000 2000 40).2.2.2.2.2.2.1 (by decide),
   (failure_atomicity demoBank 1000 1001 (-7)).2.2.2.2.2.2.2.1 (by decide),
   (failure_atomicity demoBank 1000 1001 500).2.2.2.2.2.2.2.2
     ⟨1000, "Alice", 100, "Savings"⟩ (by decide) (by decide)⟩

end BankSys
